import Mathlib

/-!
Shallow embedding, in Lean 4, of the validator-side networking core of the
`smartdrive` repository, together with theorems settling the spec's claims
about it.  Each definition is translated from the named Python source file;
collaborators that are external to the snapshot (crypto middleware, chain
client, sockets) are passed in as parameters or oracle functions.
-/

namespace SmartDrive

/-! ## Data model (src/smartdrive/commune/request.py) -/

/-- `ConnectionInfo` from `request.py`: an `(ip, port)` pair.  The source
stores `port` as a Python `int` produced by `int(...)` on a digit string,
hence a natural number here. -/
structure ConnectionInfo where
  ip : String
  port : Nat
deriving DecidableEq, Repr

/-- `ModuleInfo` from `request.py`.  In the source, `incentive` and
`dividends` are `Optional[int]` defaulting to `None`, but every module that
reaches the role classifier `get_miners` was built by `get_modules`, which
always supplies both from the chain query; the embedding therefore carries
them as integers. -/
structure ModuleInfo where
  uid : Nat
  ss58_address : String
  connection : ConnectionInfo
  incentive : Int
  dividends : Int
deriving DecidableEq, Repr

/-! ## The tolerant IPv4-with-port parser
(`_extract_address` / `_get_ip_port` in request.py)

The source matches the regular expression
`\d{1,3}\.\d{1,3}\.\d{1,3}\.\d{1,3}:\d+` with `re.search` (leftmost match,
greedy quantifiers with backtracking) and splits the match on `:`.  The
embedding realises exactly that pattern: `octetCandidates` lists the ways
`\d{1,3}` can consume input in greedy order, the nested `findSome?` calls
realise the backtracking order (innermost quantifier varies first), and
`searchAddress` scans start positions left to right. -/

/-- The candidate splits for `\d{1,3}`: up to three leading digits,
longest first (greedy order).  Empty when no digit leads. -/
def octetCandidates (cs : List Char) : List (List Char × List Char) :=
  let run := (cs.takeWhile Char.isDigit).length
  let n := min run 3
  (List.range n).map fun i => (cs.take (n - i), cs.drop (n - i))

/-- Demand the literal character `c` next, then continue with `k`
(the `\.` and `:` pieces of the pattern). -/
def expectChar (c : Char) (k : List Char → Option α) : List Char → Option α
  | x :: r => if x = c then k r else none
  | [] => none

/-- Match the whole pattern `\d{1,3}\.\d{1,3}\.\d{1,3}\.\d{1,3}:\d+`
anchored at the head of `cs`, returning the two groups produced by
`match.group(0).split(":")`: the dotted-quad text and the port digits. -/
def matchAddressAt (cs : List Char) : Option (List Char × List Char) :=
  (octetCandidates cs).findSome? fun o1 =>
  expectChar '.' (fun r1 =>
  (octetCandidates r1).findSome? fun o2 =>
  expectChar '.' (fun r2 =>
  (octetCandidates r2).findSome? fun o3 =>
  expectChar '.' (fun r3 =>
  (octetCandidates r3).findSome? fun o4 =>
  expectChar ':' (fun r4 =>
    let port := r4.takeWhile Char.isDigit
    if port.isEmpty then none
    else some (o1.1 ++ '.' :: o2.1 ++ '.' :: o3.1 ++ '.' :: o4.1, port)) o4.2) o3.2) o2.2) o1.2

/-- `re.search`: try each start position left to right. -/
def searchAddress : List Char → Option (List Char × List Char)
  | [] => none
  | c :: cs =>
    match matchAddressAt (c :: cs) with
    | some r => some r
    | none => searchAddress cs

/-- `_extract_address` from `request.py`: the `[ip, port]` pair of strings,
or `None` when the pattern does not occur in the input. -/
def extract_address (s : String) : Option (String × String) :=
  (searchAddress s.data).map fun r => (String.mk r.1, String.mk r.2)

/-- Python `int` on a (nonempty) decimal digit string. -/
def pyIntOfDigits (s : String) : Nat :=
  s.data.foldl (fun acc c => acc * 10 + (c.toNat - '0'.toNat)) 0

/-- `_get_ip_port` from `request.py`: wrap the extracted pair into a
`ConnectionInfo`.  The `try/except` of the source can only fire if
`int(...)` fails, which cannot happen on the digit run the regex matched. -/
def get_ip_port (address_string : String) : Option ConnectionInfo :=
  match extract_address address_string with
  | some extracted => some ⟨extracted.1, pyIntOfDigits extracted.2⟩
  | none => none

example : get_ip_port "1.2.3.4:99999" = some ⟨"1.2.3.4", 99999⟩ := by decide
example : get_ip_port "ip4/12.34.56.78:8000" = some ⟨"12.34.56.78", 8000⟩ := by decide
example : get_ip_port "no address here" = none := by decide
example : get_ip_port "1234.1.1.1:5" = some ⟨"234.1.1.1", 5⟩ := by decide

/-! ### Lemmas about the parser -/

lemma expectChar_eq_some {c : Char} {k : List Char → Option α} {cs : List Char} {b : α}
    (h : expectChar c k cs = some b) : ∃ r, cs = c :: r ∧ k r = some b := by
  cases cs with
  | nil => simp [expectChar] at h
  | cons x r =>
    simp only [expectChar] at h
    split at h
    · next hx => exact ⟨r, by rw [hx], h⟩
    · exact absurd h (by simp)

/-- Whenever the anchored matcher succeeds, the port group is a nonempty
run of decimal digits. -/
lemma matchAddressAt_port_digits {cs ip port : List Char}
    (h : matchAddressAt cs = some (ip, port)) :
    port ≠ [] ∧ port.all Char.isDigit = true := by
  unfold matchAddressAt at h
  obtain ⟨o1, -, h1⟩ := List.exists_of_findSome?_eq_some h
  obtain ⟨r1, -, h1⟩ := expectChar_eq_some h1
  obtain ⟨o2, -, h2⟩ := List.exists_of_findSome?_eq_some h1
  obtain ⟨r2, -, h2⟩ := expectChar_eq_some h2
  obtain ⟨o3, -, h3⟩ := List.exists_of_findSome?_eq_some h2
  obtain ⟨r3, -, h3⟩ := expectChar_eq_some h3
  obtain ⟨o4, -, h4⟩ := List.exists_of_findSome?_eq_some h3
  obtain ⟨r4, -, h4⟩ := expectChar_eq_some h4
  simp only at h4
  split at h4
  · exact absurd h4 (by simp)
  · next hne =>
    obtain ⟨-, hport⟩ := Prod.mk.injEq .. ▸ Option.some.injEq .. ▸ h4
    subst hport
    refine ⟨fun hnil => hne (by simp [List.isEmpty_iff, hnil]), List.all_takeWhile⟩

lemma searchAddress_eq_some {cs : List Char} {r : List Char × List Char}
    (h : searchAddress cs = some r) : ∃ ds, matchAddressAt ds = some r := by
  induction cs with
  | nil => simp [searchAddress] at h
  | cons c cs ih =>
    unfold searchAddress at h
    split at h
    · next heq => exact ⟨c :: cs, by rw [heq]; exact h⟩
    · exact ih h

/-- C5 counterexample: the parser accepts `"1.2.3.4:99999"`, whose port
99999 is not a uint16, so the claim `0 ≤ port < 65536` fails. -/
theorem get_ip_port_accepts_port_99999 :
    get_ip_port "1.2.3.4:99999" = some ⟨"1.2.3.4", 99999⟩ ∧ ¬(99999 < 65536) := by
  decide

/-- C5 (amended): for every on-chain address string accepted by the
IPv4-with-port parser, the port of the resulting `ConnectionInfo` is the
decimal value of the nonempty digit run matched after the colon — a natural
number with no 16-bit upper bound; in particular strings whose port value
is ≥ 65536 are accepted as well. -/
theorem get_ip_port_port_is_digit_run_value :
    (∀ s c, get_ip_port s = some c →
      ∃ ds : List Char, ds ≠ [] ∧ ds.all Char.isDigit = true ∧
        c.port = pyIntOfDigits (String.mk ds)) ∧
    (∃ s c, get_ip_port s = some c ∧ 65536 ≤ c.port) := by
  constructor
  · intro s c h
    unfold get_ip_port at h
    split at h
    · next extracted heq =>
      obtain ⟨r, hr, hext⟩ := Option.map_eq_some'.mp heq
      obtain ⟨ds, hmatch⟩ := searchAddress_eq_some hr
      obtain ⟨hne, hdig⟩ := matchAddressAt_port_digits hmatch
      refine ⟨r.2, hne, hdig, ?_⟩
      cases h
      rw [← hext]
    · exact absurd h (by simp)
  · exact ⟨"1.2.3.4:99999", ⟨"1.2.3.4", 99999⟩, by decide, by decide⟩

/-- C5 witness: the forall part of `get_ip_port_port_is_digit_run_value`
applied at the concrete accepted string `"ip4/12.34.56.78:8000"`. -/
theorem get_ip_port_port_witness :
    ∃ ds : List Char, ds ≠ [] ∧ ds.all Char.isDigit = true ∧
      (8000 : Nat) = pyIntOfDigits (String.mk ds) :=
  get_ip_port_port_is_digit_run_value.1 "ip4/12.34.56.78:8000" ⟨"12.34.56.78", 8000⟩
    (by decide)

/-! ## Connection pool
(src/smartdrive/validator/node/connection/connection_pool.py)

The manager-backed dict `ss58_address → Connection` is embedded as an
association list in insertion order (Python dicts preserve insertion
order and have unique keys); sockets are opaque handles embedded as
naturals, and `time.monotonic()` values are embedded as integers.  Every
method body below follows the Python method of the same name; the coarse
lock makes each one a single atomic state transition. -/

def PING_INTERVAL_SECONDS : Int := 5

def INACTIVITY_TIMEOUT_SECONDS : Int := 10

/-- `Connection` from connection_pool.py: `(module, socket, ping)` where
`ping` is the monotonic last-seen timestamp. -/
structure Connection where
  module : ModuleInfo
  socket : Nat
  ping : Int
deriving DecidableEq, Repr

/-- `ConnectionPool` state: `_connections` plus the configured
`_cache_size`. -/
structure ConnectionPool where
  connections : List (String × Connection)
  cache_size : Nat
deriving DecidableEq, Repr

/-- Dict key lookup on the association list. -/
def lookupConn (cs : List (String × Connection)) (identifier : String) : Option Connection :=
  (cs.find? (fun e => e.1 = identifier)).map (·.2)

/-- `self._connections.keys()`. -/
def ConnectionPool.get_identifiers (p : ConnectionPool) : List String :=
  p.connections.map (·.1)

/-- `ConnectionPool.get`. -/
def ConnectionPool.get (p : ConnectionPool) (identifier : String) : Option Connection :=
  lookupConn p.connections identifier

/-- `ConnectionPool.get_actives`: the entry, filtered by
`now − ping ≤ INACTIVITY_TIMEOUT_SECONDS`. -/
def ConnectionPool.get_actives (p : ConnectionPool) (identifier : String) (now : Int) :
    Option Connection :=
  match lookupConn p.connections identifier with
  | some connection =>
    if now - connection.ping ≤ INACTIVITY_TIMEOUT_SECONDS then some connection else none
  | none => none

/-- The `ConnectionPoolMaxSizeReached` exception of
`validator/node/util/exceptions.py`. -/
inductive PoolError where
  | connectionPoolMaxSizeReached
deriving DecidableEq, Repr

/-- `ConnectionPool.update_or_append`.  Note the source guard is
`len(self._connections) <= self._cache_size` — the insert is allowed when
the pool already holds exactly `cache_size` entries. -/
def ConnectionPool.update_or_append (p : ConnectionPool) (identifier : String)
    (module_info : ModuleInfo) (socket : Nat) (now : Int) :
    Except PoolError ConnectionPool :=
  let connection : Connection := ⟨module_info, socket, now⟩
  if identifier ∉ p.get_identifiers then
    if p.connections.length ≤ p.cache_size then
      .ok { p with connections := p.connections ++ [(identifier, connection)] }
    else
      .error .connectionPoolMaxSizeReached
  else
    .ok { p with connections :=
      p.connections.map (fun e => if e.1 = identifier then (identifier, connection) else e) }

/-- `ConnectionPool.update_ping`: reassign the entry with `ping = now`. -/
def ConnectionPool.update_ping (p : ConnectionPool) (identifier : String) (now : Int) :
    ConnectionPool :=
  if identifier ∈ p.get_identifiers then
    { p with connections :=
        p.connections.map (fun e => if e.1 = identifier then (e.1, { e.2 with ping := now }) else e) }
  else p

/-- `ConnectionPool.remove`: `pop` the entry, returning its socket when
present. -/
def ConnectionPool.remove (p : ConnectionPool) (identifier : String) :
    Option Nat × ConnectionPool :=
  ((lookupConn p.connections identifier).map (·.socket),
   { p with connections := p.connections.filter (fun e => e.1 ≠ identifier) })

/-- The loop body of `ConnectionPool.remove_multiple`: pop each identifier
in turn, collecting the sockets of the entries that were present. -/
def removeMultipleGo (cs : List (String × Connection)) :
    List String → List Nat × List (String × Connection)
  | [] => ([], cs)
  | identifier :: identifiers =>
    match lookupConn cs identifier with
    | some connection =>
      let r := removeMultipleGo (cs.filter (fun e => e.1 ≠ identifier)) identifiers
      (connection.socket :: r.1, r.2)
    | none => removeMultipleGo cs identifiers

/-- `ConnectionPool.remove_multiple`. -/
def ConnectionPool.remove_multiple (p : ConnectionPool) (identifiers : List String) :
    List Nat × ConnectionPool :=
  let r := removeMultipleGo p.connections identifiers
  (r.1, { p with connections := r.2 })

/-- `ConnectionPool.remove_inactive`: list the identifiers whose entries
are stale, read off their sockets, then delete them one by one. -/
def ConnectionPool.remove_inactive (p : ConnectionPool) (now : Int) :
    List Nat × ConnectionPool :=
  let connections_to_remove :=
    (p.connections.filter (fun e => now - e.2.ping > INACTIVITY_TIMEOUT_SECONDS)).map (·.1)
  let sockets_to_remove :=
    connections_to_remove.filterMap (fun identifier =>
      (lookupConn p.connections identifier).map (·.socket))
  let remaining :=
    connections_to_remove.foldl
      (fun cs identifier => cs.filter (fun e => e.1 ≠ identifier)) p.connections
  (sockets_to_remove, { p with connections := remaining })

/-! ### Lemmas about the pool -/

lemma lookupConn_eq_some_of_mem {cs : List (String × Connection)} {k : String} {c : Connection}
    (hnodup : (cs.map (·.1)).Nodup) (hmem : (k, c) ∈ cs) : lookupConn cs k = some c := by
  induction cs with
  | nil => simp at hmem
  | cons e cs ih =>
    simp only [List.map_cons, List.nodup_cons] at hnodup
    rcases List.mem_cons.mp hmem with h | h
    · cases h
      simp [lookupConn, List.find?_cons]
    · have hne : ¬(e.1 = k) := fun heq =>
        hnodup.1 (heq ▸ List.mem_map.mpr ⟨(k, c), h, rfl⟩)
      simpa [lookupConn, List.find?_cons, hne] using ih hnodup.2 h

lemma foldl_filter_deletes (ids : List String) :
    ∀ cs : List (String × Connection),
      ids.foldl (fun cs identifier => cs.filter (fun e => e.1 ≠ identifier)) cs
        = cs.filter (fun e => e.1 ∉ ids) := by
  induction ids with
  | nil =>
    intro cs
    simp
  | cons i ids ih =>
    intro cs
    rw [List.foldl_cons, ih, List.filter_filter]
    apply List.filter_congr
    intro e _
    by_cases h1 : e.1 = i <;> by_cases h2 : e.1 ∈ ids <;> simp [h1, h2]

lemma mem_filter_keys_iff {cs : List (String × Connection)}
    (hnodup : (cs.map (·.1)).Nodup) {e : String × Connection} (he : e ∈ cs)
    (P : String × Connection → Bool) :
    e.1 ∈ (cs.filter P).map (·.1) ↔ P e = true := by
  constructor
  · intro h
    obtain ⟨e', he', hkey⟩ := List.mem_map.mp h
    have hmem := (List.mem_filter.mp he').1
    have hP := (List.mem_filter.mp he').2
    rwa [List.inj_on_of_nodup_map hnodup hmem he hkey] at hP
  · intro h
    exact List.mem_map.mpr ⟨e, List.mem_filter.mpr ⟨he, h⟩, rfl⟩

lemma filterMap_eq_map_of_forall {α β : Type _} {l : List α} {f : α → Option β} {g : α → β}
    (h : ∀ e ∈ l, f e = some (g e)) : l.filterMap f = l.map g := by
  induction l with
  | nil => rfl
  | cons a l ih =>
    rw [List.filterMap_cons_some (h a (by simp)), List.map_cons,
      ih (fun e he => h e (by simp [he]))]

/-- C6: `remove_inactive` removes exactly the entries with
`now − ping > INACTIVITY_TIMEOUT_SECONDS`, returns exactly the sockets of
the removed entries (in pool order), and every surviving entry is an
unmodified original entry with `now − ping ≤ INACTIVITY_TIMEOUT_SECONDS`;
the configured capacity is untouched. -/
theorem remove_inactive_spec (p : ConnectionPool) (now : Int)
    (hnodup : (p.connections.map (·.1)).Nodup) :
    (p.remove_inactive now).2.connections
        = p.connections.filter (fun e => now - e.2.ping ≤ INACTIVITY_TIMEOUT_SECONDS) ∧
    (p.remove_inactive now).1
        = (p.connections.filter
            (fun e => now - e.2.ping > INACTIVITY_TIMEOUT_SECONDS)).map (·.2.socket) ∧
    (∀ e ∈ (p.remove_inactive now).2.connections,
        now - e.2.ping ≤ INACTIVITY_TIMEOUT_SECONDS ∧ e ∈ p.connections) ∧
    (p.remove_inactive now).2.cache_size = p.cache_size := by
  have hpool : (p.remove_inactive now).2.connections
      = p.connections.filter (fun e => now - e.2.ping ≤ INACTIVITY_TIMEOUT_SECONDS) := by
    simp only [ConnectionPool.remove_inactive]
    rw [foldl_filter_deletes]
    apply List.filter_congr
    intro e he
    have hiff := mem_filter_keys_iff hnodup he
      (fun e => now - e.2.ping > INACTIVITY_TIMEOUT_SECONDS)
    by_cases hP : now - e.2.ping > INACTIVITY_TIMEOUT_SECONDS
    · have := hiff.mpr (by simpa using hP)
      simp [this, not_lt.mp, hP]
      omega
    · have : e.1 ∉ (p.connections.filter
          (fun e => now - e.2.ping > INACTIVITY_TIMEOUT_SECONDS)).map (·.1) := by
        intro hmem
        exact hP (by simpa using hiff.mp hmem)
      simp [this]
      omega
  refine ⟨hpool, ?_, ?_, rfl⟩
  · simp only [ConnectionPool.remove_inactive]
    rw [List.filterMap_map]
    apply filterMap_eq_map_of_forall
    intro e he
    have hmem : e ∈ p.connections := List.mem_of_mem_filter he
    have : lookupConn p.connections e.1 = some e.2 :=
      lookupConn_eq_some_of_mem hnodup hmem
    simp [Function.comp, this]
  · intro e he
    rw [hpool] at he
    exact ⟨by simpa using (List.mem_filter.mp he).2, List.mem_of_mem_filter he⟩

/-- C6 witness: `remove_inactive_spec` applied to a concrete two-entry
pool at time 105 — the entry last seen at 0 is reaped (socket 1), the
entry last seen at 100 survives. -/
theorem remove_inactive_spec_witness :
    (ConnectionPool.remove_inactive
        ⟨[("a", ⟨⟨0, "a", ⟨"1.1.1.1", 1⟩, 0, 0⟩, 1, 0⟩),
          ("b", ⟨⟨1, "b", ⟨"2.2.2.2", 2⟩, 0, 0⟩, 2, 100⟩)], 5⟩ 105).1 = [1] :=
  ((remove_inactive_spec _ 105 (by decide)).2.1).trans (by decide)

/-! ### Reachable pool states (claim C2) -/

/-- The states reachable from an empty pool by the pool's own
operations. -/
inductive PoolReachable : ConnectionPool → Prop where
  | empty (cache_size : Nat) : PoolReachable ⟨[], cache_size⟩
  | update_or_append {p p' : ConnectionPool} {identifier : String}
      {module_info : ModuleInfo} {socket : Nat} {now : Int} :
      PoolReachable p →
      p.update_or_append identifier module_info socket now = .ok p' →
      PoolReachable p'
  | update_ping {p : ConnectionPool} (identifier : String) (now : Int) :
      PoolReachable p → PoolReachable (p.update_ping identifier now)
  | remove {p : ConnectionPool} (identifier : String) :
      PoolReachable p → PoolReachable (p.remove identifier).2
  | remove_multiple {p : ConnectionPool} (identifiers : List String) :
      PoolReachable p → PoolReachable (p.remove_multiple identifiers).2
  | remove_inactive {p : ConnectionPool} (now : Int) :
      PoolReachable p → PoolReachable (p.remove_inactive now).2

lemma length_removeMultipleGo_le (ids : List String) :
    ∀ cs : List (String × Connection), (removeMultipleGo cs ids).2.length ≤ cs.length := by
  induction ids with
  | nil => intro cs; exact le_refl _
  | cons i ids ih =>
    intro cs
    simp only [removeMultipleGo]
    rcases h : lookupConn cs i with - | c
    · simpa [h] using ih cs
    · simpa [h] using le_trans (ih _) (List.length_filter_le _ _)

/-- C2 counterexample: a reachable pool holding exactly its configured
capacity (one entry, `cache_size = 1`).  Inserting a new identifier does
NOT raise `ConnectionPoolMaxSizeReached`: the source guard is
`len <= cache_size`, so the pool grows to 2 > 1 entries. -/
theorem update_or_append_at_capacity_inserts :
    PoolReachable ⟨[("a", ⟨⟨0, "a", ⟨"1.1.1.1", 1⟩, 0, 0⟩, 1, 0⟩)], 1⟩ ∧
    ([("a", (⟨⟨0, "a", ⟨"1.1.1.1", 1⟩, 0, 0⟩, 1, 0⟩ : Connection))].length = 1) ∧
    ConnectionPool.update_or_append
        ⟨[("a", ⟨⟨0, "a", ⟨"1.1.1.1", 1⟩, 0, 0⟩, 1, 0⟩)], 1⟩
        "b" ⟨1, "b", ⟨"2.2.2.2", 2⟩, 0, 0⟩ 2 3
      = .ok ⟨[("a", ⟨⟨0, "a", ⟨"1.1.1.1", 1⟩, 0, 0⟩, 1, 0⟩),
             ("b", ⟨⟨1, "b", ⟨"2.2.2.2", 2⟩, 0, 0⟩, 2, 3⟩)], 1⟩ ∧
    ¬((2 : Nat) ≤ 1) := by
  have h1 : (⟨[], 1⟩ : ConnectionPool).update_or_append "a" ⟨0, "a", ⟨"1.1.1.1", 1⟩, 0, 0⟩ 1 0
      = .ok ⟨[("a", ⟨⟨0, "a", ⟨"1.1.1.1", 1⟩, 0, 0⟩, 1, 0⟩)], 1⟩ := rfl
  exact ⟨PoolReachable.update_or_append (PoolReachable.empty 1) h1, rfl, rfl, by decide⟩

/-- C2 (amended): `update_or_append` admits a new identifier whenever the
pool holds at most `cache_size` entries, so a pool at exactly its
configured capacity still accepts one more; `ConnectionPoolMaxSizeReached`
is raised — leaving the pool unchanged, since the exception is raised
before any mutation — exactly when the pool already holds strictly more
than `cache_size` entries and the identifier is new.  Consequently every
reachable pool state satisfies `size ≤ cache_size + 1` (not
`size ≤ cache_size`). -/
theorem pool_size_bound_and_overflow_error :
    (∀ p : ConnectionPool, PoolReachable p → p.connections.length ≤ p.cache_size + 1) ∧
    (∀ (p : ConnectionPool) (identifier : String) (module_info : ModuleInfo)
        (socket : Nat) (now : Int),
        identifier ∉ p.get_identifiers → p.cache_size < p.connections.length →
        p.update_or_append identifier module_info socket now
          = .error .connectionPoolMaxSizeReached) := by
  constructor
  · intro p hp
    induction hp with
    | empty c => simp
    | @update_or_append q p' identifier module_info socket now hq hok ih =>
      unfold ConnectionPool.update_or_append at hok
      split at hok
      · split at hok
        · next hlen =>
          cases hok
          simpa using Nat.succ_le_succ hlen
        · exact Except.noConfusion hok
      · cases hok
        simpa using ih
    | update_ping identifier now hq ih =>
      unfold ConnectionPool.update_ping
      split
      · simpa using ih
      · exact ih
    | remove identifier hq ih =>
      simpa [ConnectionPool.remove] using
        le_trans (List.length_filter_le _ _) ih
    | remove_multiple identifiers hq ih =>
      simpa [ConnectionPool.remove_multiple] using
        le_trans (length_removeMultipleGo_le _ _) ih
    | remove_inactive now hq ih =>
      simp only [ConnectionPool.remove_inactive, foldl_filter_deletes]
      exact le_trans (List.length_filter_le _ _) ih
  · intro p identifier module_info socket now hnotin hlt
    unfold ConnectionPool.update_or_append
    rw [if_pos hnotin, if_neg (not_le.mpr hlt)]

/-- C2 witness: the amended theorem applied at concrete inputs — the
reachable one-entry pool with `cache_size = 0` satisfies the `+1` bound,
and inserting a second fresh identifier into it raises the exception. -/
theorem pool_size_bound_witness :
    ((⟨[("a", ⟨⟨0, "a", ⟨"1.1.1.1", 1⟩, 0, 0⟩, 1, 0⟩)], 0⟩ :
        ConnectionPool).connections.length ≤ 0 + 1) ∧
    ConnectionPool.update_or_append
        ⟨[("a", ⟨⟨0, "a", ⟨"1.1.1.1", 1⟩, 0, 0⟩, 1, 0⟩)], 0⟩
        "b" ⟨1, "b", ⟨"2.2.2.2", 2⟩, 0, 0⟩ 2 3
      = .error .connectionPoolMaxSizeReached := by
  have h1 : (⟨[], 0⟩ : ConnectionPool).update_or_append "a" ⟨0, "a", ⟨"1.1.1.1", 1⟩, 0, 0⟩ 1 0
      = .ok ⟨[("a", ⟨⟨0, "a", ⟨"1.1.1.1", 1⟩, 0, 0⟩, 1, 0⟩)], 0⟩ := rfl
  exact ⟨pool_size_bound_and_overflow_error.1 _
      (PoolReachable.update_or_append (PoolReachable.empty 0) h1),
    pool_size_bound_and_overflow_error.2 _ "b" ⟨1, "b", ⟨"2.2.2.2", 2⟩, 0, 0⟩ 2 3
      (by decide) (by decide)⟩

/-! ## Inbound server handshake
(src/smartdrive/validator/network/node/server.py, `_handle_connection`)

The crypto middleware (`get_ss58_address_from_public_key`,
`verify_data_signature`) lives outside the snapshot and is passed in as
oracle functions, as are the received (already unframed) message and the
validator snapshot returned by `get_filtered_modules`. -/

/-- The `body` of the `IDENTIFIER` envelope: the message code and
`data.ss58_address`. -/
structure Body where
  code : Nat
  dataSs58 : String
deriving DecidableEq, Repr

/-- The signed envelope received by `_handle_connection`. -/
structure IdentificationMessage where
  body : Body
  signature_hex : String
  public_key_hex : String
deriving DecidableEq, Repr

/-- Modelled from the spec: the server-side connection pool of
`src/smartdrive/validator/network/node/connection_pool.py`, which is not
part of the source snapshot (only its caller `server.py` is).  Spec §4.3:
a mapping `ss58_address → Connection` with a configured maximum capacity,
`identifiers()` listing the keys and `upsert` inserting or replacing under
the key; `get_remaining_capacity` is the free room left.  The module
metadata is what the handshake stores; sockets/timestamps are omitted as
no claim about this pool observes them. -/
structure ServerConnectionPool where
  entries : List (String × ModuleInfo)
  capacity : Nat
deriving DecidableEq, Repr

def ServerConnectionPool.get_identifiers (p : ServerConnectionPool) : List String :=
  p.entries.map (·.1)

def ServerConnectionPool.get_remaining_capacity (p : ServerConnectionPool) : Nat :=
  p.capacity - p.entries.length

def ServerConnectionPool.add_connection (p : ServerConnectionPool) (identifier : String)
    (module : ModuleInfo) : ServerConnectionPool :=
  if identifier ∈ p.get_identifiers then
    { p with entries :=
        p.entries.map (fun e => if e.1 = identifier then (identifier, module) else e) }
  else
    { p with entries := p.entries ++ [(identifier, module)] }

/-- The observable outcome of one `_handle_connection` call: the pool
afterwards, whether `client_socket.close()` was called, whether a
receiver (`Client(...).start()`) was started for the socket, and the
identifier under which the peer was admitted, if any. -/
structure HandleResult where
  pool : ServerConnectionPool
  socketClosed : Bool
  receiverStarted : Bool
  admitted : Option String
deriving DecidableEq, Repr

/-- `_handle_connection` from `server.py`.  `msg = none` models the
timeout branch (no frame within `IDENTIFIER_TIMEOUT_SECONDS`) as well as
an exception from `receive_msg`, both of which just close.  The source
peculiarities are preserved: a failed signature closes the socket but
does NOT return, and the duplicate-identifier branch returns WITHOUT
closing. -/
def handle_connection (pool : ServerConnectionPool) (validators : List ModuleInfo)
    (get_ss58_address_from_public_key : String → String)
    (verify_data_signature : Body → String → String → Bool)
    (msg : Option IdentificationMessage) : HandleResult :=
  match msg with
  | none => ⟨pool, true, false, none⟩
  | some identification_message =>
    let ss58_address :=
      get_ss58_address_from_public_key identification_message.public_key_hex
    let is_verified_signature :=
      verify_data_signature identification_message.body
        identification_message.signature_hex ss58_address
    let closedOnBadSignature := !is_verified_signature
    let connection_identifier := identification_message.body.dataSs58
    if connection_identifier ∈ pool.get_identifiers then
      ⟨pool, closedOnBadSignature, false, none⟩
    else if pool.get_remaining_capacity = 0 then
      ⟨pool, true, false, none⟩
    else if validators.isEmpty then
      ⟨pool, true, false, none⟩
    else
      match validators.find? (fun validator => validator.ss58_address = connection_identifier) with
      | some validator_connection =>
        if pool.get_remaining_capacity > 0 then
          ⟨pool.add_connection validator_connection.ss58_address validator_connection,
           closedOnBadSignature, true, some validator_connection.ss58_address⟩
        else ⟨pool, true, false, none⟩
      | none => ⟨pool, true, false, none⟩

/-- C1: evaluating `_handle_connection` at the failing input — the
signature does not verify, the claimed identifier is a fresh validator
and the pool has room.  The socket is closed, yet the handler then falls
through (the `if not is_verified_signature:` branch has no `return`),
admits the peer into the pool and starts a receiver on the closed
socket: `admitted = some "B"` and `receiverStarted = true`, refuting
"the peer is never admitted". -/
theorem handle_connection_admits_despite_bad_signature :
    handle_connection ⟨[], 1⟩ [⟨1, "B", ⟨"2.2.2.2", 9001⟩, 0, 1⟩]
        (fun _ => "A") (fun _ _ _ => false)
        (some ⟨⟨0, "B"⟩, "deadbeef", "aabb"⟩)
      = ⟨⟨[("B", ⟨1, "B", ⟨"2.2.2.2", 9001⟩, 0, 1⟩)], 1⟩, true, true, some "B"⟩ := by
  decide

/-- C3: evaluating `_handle_connection` at the failing input — the
envelope is validly signed by the key whose derived address is `"A"`, but
`body.data.ss58_address` names the different validator `"B"`.  The source
never compares the two, so the peer is admitted under `"B"` even though
the address derived from `public_key_hex` is `"A"`: identity spoofing. -/
theorem handle_connection_admits_spoofed_identifier :
    handle_connection ⟨[], 1⟩ [⟨1, "B", ⟨"2.2.2.2", 9001⟩, 0, 1⟩]
        (fun _ => "A") (fun _ _ _ => true)
        (some ⟨⟨0, "B"⟩, "cafe", "aabb"⟩)
      = ⟨⟨[("B", ⟨1, "B", ⟨"2.2.2.2", 9001⟩, 0, 1⟩)], 1⟩, false, true, some "B"⟩ ∧
    ("B" : String) ≠ "A" := by
  decide

/-- C4 counterexample: a duplicate identifier with a valid signature.
The handler leaves the pool unchanged but returns with
`socketClosed = false` — the newly accepted socket is NOT closed,
refuting "the handler closes the newly accepted socket". -/
theorem handle_connection_duplicate_socket_not_closed :
    handle_connection ⟨[("B", ⟨1, "B", ⟨"2.2.2.2", 9001⟩, 0, 1⟩)], 2⟩
        [⟨1, "B", ⟨"2.2.2.2", 9001⟩, 0, 1⟩]
        (fun _ => "B") (fun _ _ _ => true)
        (some ⟨⟨0, "B"⟩, "cafe", "aabb"⟩)
      = ⟨⟨[("B", ⟨1, "B", ⟨"2.2.2.2", 9001⟩, 0, 1⟩)], 2⟩, false, false, none⟩ := by
  decide

/-- C4 (amended): when the incoming `IDENTIFIER` carries an
`ss58_address` already present in the pool, the handler returns leaving
the pool unchanged (the existing entry is not replaced and pool size does
not change), admits nothing and starts no receiver — but it does NOT
close the newly accepted socket; the socket is closed only if the earlier
signature check had already failed. -/
theorem handle_connection_duplicate_identifier (pool : ServerConnectionPool)
    (validators : List ModuleInfo) (derive : String → String)
    (verify : Body → String → String → Bool) (m : IdentificationMessage)
    (hdup : m.body.dataSs58 ∈ pool.get_identifiers) :
    handle_connection pool validators derive verify (some m)
      = ⟨pool, !(verify m.body m.signature_hex (derive m.public_key_hex)), false, none⟩ := by
  unfold handle_connection
  simp [hdup]

/-- C4 witness: `handle_connection_duplicate_identifier` applied at a
concrete duplicate handshake with a valid signature: the pool is
untouched and the socket stays open. -/
theorem handle_connection_duplicate_identifier_witness :
    handle_connection ⟨[("C", ⟨2, "C", ⟨"3.3.3.3", 9001⟩, 0, 1⟩)], 2⟩
        [⟨2, "C", ⟨"3.3.3.3", 9001⟩, 0, 1⟩]
        (fun _ => "C") (fun _ _ _ => true)
        (some ⟨⟨0, "C"⟩, "cafe", "ccdd"⟩)
      = ⟨⟨[("C", ⟨2, "C", ⟨"3.3.3.3", 9001⟩, 0, 1⟩)], 2⟩, false, false, none⟩ :=
  handle_connection_duplicate_identifier
    ⟨[("C", ⟨2, "C", ⟨"3.3.3.3", 9001⟩, 0, 1⟩)], 2⟩
    [⟨2, "C", ⟨"3.3.3.3", 9001⟩, 0, 1⟩]
    (fun _ => "C") (fun _ _ _ => true)
    ⟨⟨0, "C"⟩, "cafe", "ccdd"⟩ (by decide)

/-! ## Registry client (request.py: `get_modules`, `get_miners`)

The chain query `query_batch_map` is the external collaborator: its
result is passed in as `keys_map` (the `Keys` dict in iteration order),
`address_map` (the `Address` dict) and the `Incentive`/`Dividends`
vectors for the netuid. -/

/-- The loop body of `get_modules`: keep an entry only when its address
is present and truthy (Python `if address:` — `None` and `""` are both
falsy) and the IPv4-with-port parser succeeds. -/
def moduleOfEntry (address_map : Nat → Option String) (incentive dividends : Nat → Int)
    (p : Nat × String) : Option ModuleInfo :=
  match address_map p.1 with
  | some address =>
    if address ≠ "" then
      match get_ip_port address with
      | some connection => some ⟨p.1, p.2, connection, incentive p.1, dividends p.1⟩
      | none => none
    else none
  | none => none

/-- `get_modules` from `request.py`. -/
def get_modules (keys_map : List (Nat × String)) (address_map : Nat → Option String)
    (incentive dividends : Nat → Int) : List ModuleInfo :=
  keys_map.filterMap (moduleOfEntry address_map incentive dividends)

/-- `get_miners` from `request.py`: keep the modules with
`(incentive == dividends == 0) or incentive > dividends` (the Python
chained comparison reads `incentive == dividends and dividends == 0`). -/
def get_miners (keys_map : List (Nat × String)) (address_map : Nat → Option String)
    (incentive dividends : Nat → Int) : List ModuleInfo :=
  (get_modules keys_map address_map incentive dividends).filter
    (fun module => (module.incentive = module.dividends ∧ module.dividends = 0) ∨
      module.incentive > module.dividends)

lemma moduleOfEntry_eq_some_iff {address_map : Nat → Option String}
    {incentive dividends : Nat → Int} {p : Nat × String} {m : ModuleInfo} :
    moduleOfEntry address_map incentive dividends p = some m ↔
      ∃ address connection, address_map p.1 = some address ∧ address ≠ "" ∧
        get_ip_port address = some connection ∧
        m = ⟨p.1, p.2, connection, incentive p.1, dividends p.1⟩ := by
  constructor
  · intro h
    unfold moduleOfEntry at h
    split at h
    · next address haddr =>
      split at h
      · next hne =>
        split at h
        · next connection hconn =>
          cases h
          exact ⟨address, connection, haddr, hne, hconn, rfl⟩
        · exact absurd h (by simp)
      · exact absurd h (by simp)
    · exact absurd h (by simp)
  · rintro ⟨address, connection, haddr, hne, hconn, rfl⟩
    unfold moduleOfEntry
    rw [haddr]
    simp [hne, hconn]

/-- C9: a `ModuleInfo` is returned by `get_modules` exactly when it comes
from a keys entry whose address is present, truthy, and parsed by the
IPv4-with-port parser into the module's `ConnectionInfo`; entries with no
address or an unparseable address are dropped, and every returned module
carries a connection produced by a successful parse. -/
theorem get_modules_mem_iff (keys_map : List (Nat × String))
    (address_map : Nat → Option String) (incentive dividends : Nat → Int)
    (m : ModuleInfo) :
    m ∈ get_modules keys_map address_map incentive dividends ↔
      ∃ p ∈ keys_map, ∃ address connection,
        address_map p.1 = some address ∧ address ≠ "" ∧
        get_ip_port address = some connection ∧
        m = ⟨p.1, p.2, connection, incentive p.1, dividends p.1⟩ := by
  unfold get_modules
  rw [List.mem_filterMap]
  constructor
  · rintro ⟨p, hp, hf⟩
    exact ⟨p, hp, moduleOfEntry_eq_some_iff.mp hf⟩
  · rintro ⟨p, hp, h⟩
    exact ⟨p, hp, moduleOfEntry_eq_some_iff.mpr h⟩

/-- C8: `get_miners` returns exactly the modules of `get_modules`
classified as miners by the role rule
`(incentive = dividends = 0) ∨ incentive > dividends`. -/
theorem get_miners_mem_iff (keys_map : List (Nat × String))
    (address_map : Nat → Option String) (incentive dividends : Nat → Int)
    (m : ModuleInfo) :
    m ∈ get_miners keys_map address_map incentive dividends ↔
      m ∈ get_modules keys_map address_map incentive dividends ∧
        ((m.incentive = m.dividends ∧ m.dividends = 0) ∨ m.incentive > m.dividends) := by
  unfold get_miners
  rw [List.mem_filter]
  simp

/-! ## Miner RPC client and the retrieve endpoint
(request.py: `execute_miner_request`; retrieve_api.py)

`ModuleClient.call` is the external collaborator: its outcome — a miner
answer or one of the failure kinds the spec names — is passed in as an
`Except`.  The `except Exception` of `execute_miner_request` maps every
failure to `None`. -/

/-- The failure kinds of a miner RPC call per spec §4.8; the source
catches them all with one `except Exception`. -/
inductive RpcError where
  | rpcTimeout
  | rpcSignatureInvalid
  | rpcPeerError
  | rpcTransport
deriving DecidableEq, Repr

/-- A successful `retrieve` response: `data` carries the chunk. -/
structure MinerAnswer where
  chunk : String
deriving DecidableEq, Repr

/-- `execute_miner_request` from `request.py`: any exception from
`ModuleClient.call` yields `None`; a success is returned as-is. -/
def execute_miner_request (call_result : Except RpcError MinerAnswer) : Option MinerAnswer :=
  match call_result with
  | .ok miner_answer => some miner_answer
  | .error _ => none

/-- `retrieve_request` from retrieve_api.py:
`miner_answer["chunk"] if miner_answer else None`. -/
def retrieve_request (call_result : Except RpcError MinerAnswer) : Option String :=
  match execute_miner_request call_result with
  | some miner_answer => some miner_answer.chunk
  | none => none

/-- One row of `database.get_miner_chunks(file_uuid)` joined with the
active-miner info (the dicts traversed by `retrieve_endpoint`). -/
structure MinerChunk where
  uid : Nat
  ss58_address : String
  ip : String
  port : Nat
  chunk_uuid : String
deriving DecidableEq, Repr

/-- `MinerProcess` from `models/event.py` (outside the snapshot, fields
per spec §3): `processing_time` is the elapsed wall-clock value the
endpoint measured, carried through opaquely as an integer. -/
structure MinerProcess where
  chunk_uuid : String
  miner_ss58_address : String
  succeed : Bool
  processing_time : Int
deriving DecidableEq, Repr

/-- The HTTP-visible outcome of `retrieve_endpoint`: a returned chunk, a
raised `HTTPException`, or the uncaught `IndexError` from
`miners_with_chunks[0]` on an empty list. -/
inductive RetrieveResult where
  | ok (chunk : String)
  | httpException (status : Nat) (detail : String)
  | indexError
deriving DecidableEq, Repr

/-- `RetrieveAPI.retrieve_endpoint` from retrieve_api.py.  The database
(`check_if_file_exists`, `get_miner_chunks`), the active-miner discovery
and the join `get_miner_info_with_chunk` (defined in
`validator/api/utils.py`, outside the snapshot) are oracle inputs; `rpc`
is the per-miner outcome of `ModuleClient.call` and `elapsed` the
measured per-miner wall time.  The first component is the
`miners_processes` list of the emitted event (`none` when the endpoint
raises before reaching the loop); the second is the HTTP outcome. -/
def retrieve_endpoint (file_exists : Bool) (miner_chunks : List MinerChunk)
    (active_miners : List ModuleInfo) (miners_with_chunks : List MinerChunk)
    (rpc : MinerChunk → Except RpcError MinerAnswer) (elapsed : MinerChunk → Int) :
    Option (List MinerProcess) × RetrieveResult :=
  if !file_exists then (none, .httpException 404 "File does not exist")
  else if miner_chunks.isEmpty then
    (none, .httpException 404 "Currently no miner has any chunk")
  else if active_miners.isEmpty then
    (none, .httpException 404 "Currently there are no active miners")
  else
    let processed := miners_with_chunks.map
      (fun miner_chunk => (miner_chunk, retrieve_request (rpc miner_chunk)))
    let miners_processes := processed.map
      (fun pc => (⟨pc.1.chunk_uuid, pc.1.ss58_address, pc.2.isSome, elapsed pc.1⟩ : MinerProcess))
    match processed with
    | [] => (some miners_processes, .indexError)
    | pc0 :: _ =>
      -- the event is emitted before the final check; the source's
      -- `if miners_with_chunks[0]["chunk"]:` is Python truthiness, false
      -- both for `None` and for an empty-string chunk
      (some miners_processes,
       match pc0.2 with
       | some chunk =>
         if chunk ≠ "" then .ok chunk
         else .httpException 404 "The chunk does not exist"
       | none => .httpException 404 "The chunk does not exist")

lemma retrieve_request_isSome (r : Except RpcError MinerAnswer) :
    (retrieve_request r).isSome = (match r with | .ok _ => true | .error _ => false) := by
  cases r <;> rfl

/-- C7: a failing `ModuleClient.call` makes `execute_miner_request`
return `None` instead of propagating, a success is returned as-is, and
`retrieve_endpoint` records one `MinerProcess` per joined miner with
`succeed` false exactly on failure and `processing_time` always set to
the measured elapsed value. -/
theorem rpc_failure_yields_none_and_failed_miner_process :
    (∀ e : RpcError, execute_miner_request (.error e) = none) ∧
    (∀ a : MinerAnswer, execute_miner_request (.ok a) = some a) ∧
    (∀ (miner_chunks : List MinerChunk) (active_miners : List ModuleInfo)
        (miners_with_chunks : List MinerChunk)
        (rpc : MinerChunk → Except RpcError MinerAnswer) (elapsed : MinerChunk → Int),
        miner_chunks ≠ [] → active_miners ≠ [] →
        (retrieve_endpoint true miner_chunks active_miners miners_with_chunks rpc elapsed).1
          = some (miners_with_chunks.map (fun mc =>
              (⟨mc.chunk_uuid, mc.ss58_address,
                (match rpc mc with | .ok _ => true | .error _ => false),
                elapsed mc⟩ : MinerProcess)))) := by
  refine ⟨fun e => rfl, fun a => rfl, ?_⟩
  intro miner_chunks active_miners miners_with_chunks rpc elapsed hmc ham
  unfold retrieve_endpoint
  rw [if_neg (by simp), if_neg (by simpa [List.isEmpty_iff] using hmc),
    if_neg (by simpa [List.isEmpty_iff] using ham)]
  have hmap : (miners_with_chunks.map
        (fun miner_chunk => (miner_chunk, retrieve_request (rpc miner_chunk)))).map
          (fun pc => (⟨pc.1.chunk_uuid, pc.1.ss58_address, pc.2.isSome, elapsed pc.1⟩ :
            MinerProcess))
      = miners_with_chunks.map (fun mc =>
          (⟨mc.chunk_uuid, mc.ss58_address,
            (match rpc mc with | .ok _ => true | .error _ => false),
            elapsed mc⟩ : MinerProcess)) := by
    rw [List.map_map]
    apply List.map_congr_left
    intro mc _
    simp [Function.comp, retrieve_request_isSome]
  rcases miners_with_chunks with - | ⟨mc0, rest⟩
  · simp
  · simp only [List.map_cons]
    rcases h0 : retrieve_request (rpc mc0) with - | chunk
    · simpa [h0] using hmap
    · simpa [h0] using hmap

/-- C7 witness: the endpoint part of
`rpc_failure_yields_none_and_failed_miner_process` at a concrete run with
two joined miners, the first RPC timing out and the second succeeding:
the event records `succeed = false` with its elapsed time for the first
and `succeed = true` for the second. -/
theorem rpc_failure_miner_process_witness :
    (retrieve_endpoint true [⟨1, "M1", "1.1.1.1", 8000, "u1"⟩]
        [⟨9, "V", ⟨"9.9.9.9", 9001⟩, 1, 0⟩]
        [⟨1, "M1", "1.1.1.1", 8000, "u1"⟩, ⟨2, "M2", "2.2.2.2", 8000, "u2"⟩]
        (fun mc => if mc.uid = 1 then .error .rpcTimeout else .ok ⟨"DATA"⟩)
        (fun mc => if mc.uid = 1 then 60 else 2)).1
      = some [⟨"u1", "M1", false, 60⟩, ⟨"u2", "M2", true, 2⟩] :=
  (rpc_failure_yields_none_and_failed_miner_process.2.2
      [⟨1, "M1", "1.1.1.1", 8000, "u1"⟩]
      [⟨9, "V", ⟨"9.9.9.9", 9001⟩, 1, 0⟩]
      [⟨1, "M1", "1.1.1.1", 8000, "u1"⟩, ⟨2, "M2", "2.2.2.2", 8000, "u2"⟩]
      (fun mc => if mc.uid = 1 then .error .rpcTimeout else .ok ⟨"DATA"⟩)
      (fun mc => if mc.uid = 1 then 60 else 2)
      (by decide) (by decide)).trans (by decide)

/-- C10: with the file present, chunks recorded and active miners
available, `retrieve_endpoint` hits the uncaught `IndexError` from
`miners_with_chunks[0]` when the join is empty (the event is still
emitted, with an empty process list), and when the join is nonempty the
HTTP outcome is decided solely by the first entry's chunk under Python
truthiness: a 404 whenever the first miner's retrieval failed — or
returned an empty-string chunk — regardless of the remaining entries. -/
theorem retrieve_endpoint_first_entry_decides
    (miner_chunks : List MinerChunk) (active_miners : List ModuleInfo)
    (miners_with_chunks : List MinerChunk)
    (rpc : MinerChunk → Except RpcError MinerAnswer) (elapsed : MinerChunk → Int)
    (hmc : miner_chunks ≠ []) (ham : active_miners ≠ []) :
    (miners_with_chunks = [] →
      (retrieve_endpoint true miner_chunks active_miners miners_with_chunks rpc elapsed)
        = (some [], .indexError)) ∧
    (∀ mc0 rest, miners_with_chunks = mc0 :: rest →
      (retrieve_endpoint true miner_chunks active_miners miners_with_chunks rpc elapsed).2
        = (match retrieve_request (rpc mc0) with
           | some chunk =>
             if chunk ≠ "" then .ok chunk
             else RetrieveResult.httpException 404 "The chunk does not exist"
           | none => RetrieveResult.httpException 404 "The chunk does not exist")) := by
  constructor
  · intro hempty
    subst hempty
    unfold retrieve_endpoint
    rw [if_neg (by simp), if_neg (by simpa [List.isEmpty_iff] using hmc),
      if_neg (by simpa [List.isEmpty_iff] using ham)]
    rfl
  · intro mc0 rest hcons
    subst hcons
    unfold retrieve_endpoint
    rw [if_neg (by simp), if_neg (by simpa [List.isEmpty_iff] using hmc),
      if_neg (by simpa [List.isEmpty_iff] using ham)]
    rfl

/-- C10 witness: `retrieve_endpoint_first_entry_decides` at concrete
inputs — with an empty join the outcome is the `IndexError`; with a
nonempty join whose first RPC fails, a 404 is returned even though the
second miner delivered its chunk; and with a first RPC that succeeds
with an empty-string chunk, the falsy chunk likewise yields the 404. -/
theorem retrieve_endpoint_first_entry_witness :
    (retrieve_endpoint true [⟨1, "M1", "1.1.1.1", 8000, "u1"⟩]
        [⟨9, "V", ⟨"9.9.9.9", 9001⟩, 1, 0⟩] []
        (fun _ => .ok ⟨"DATA"⟩) (fun _ => 1)
      = (some [], .indexError)) ∧
    ((retrieve_endpoint true [⟨1, "M1", "1.1.1.1", 8000, "u1"⟩]
        [⟨9, "V", ⟨"9.9.9.9", 9001⟩, 1, 0⟩]
        [⟨1, "M1", "1.1.1.1", 8000, "u1"⟩, ⟨2, "M2", "2.2.2.2", 8000, "u2"⟩]
        (fun mc => if mc.uid = 1 then .error .rpcTimeout else .ok ⟨"DATA"⟩)
        (fun _ => 1)).2
      = .httpException 404 "The chunk does not exist") ∧
    ((retrieve_endpoint true [⟨1, "M1", "1.1.1.1", 8000, "u1"⟩]
        [⟨9, "V", ⟨"9.9.9.9", 9001⟩, 1, 0⟩]
        [⟨1, "M1", "1.1.1.1", 8000, "u1"⟩, ⟨2, "M2", "2.2.2.2", 8000, "u2"⟩]
        (fun mc => if mc.uid = 1 then .ok ⟨""⟩ else .ok ⟨"DATA"⟩)
        (fun _ => 1)).2
      = .httpException 404 "The chunk does not exist") :=
  ⟨(retrieve_endpoint_first_entry_decides [⟨1, "M1", "1.1.1.1", 8000, "u1"⟩]
      [⟨9, "V", ⟨"9.9.9.9", 9001⟩, 1, 0⟩] []
      (fun _ => .ok ⟨"DATA"⟩) (fun _ => 1) (by decide) (by decide)).1 rfl,
   ((retrieve_endpoint_first_entry_decides [⟨1, "M1", "1.1.1.1", 8000, "u1"⟩]
      [⟨9, "V", ⟨"9.9.9.9", 9001⟩, 1, 0⟩]
      [⟨1, "M1", "1.1.1.1", 8000, "u1"⟩, ⟨2, "M2", "2.2.2.2", 8000, "u2"⟩]
      (fun mc => if mc.uid = 1 then .error .rpcTimeout else .ok ⟨"DATA"⟩)
      (fun _ => 1) (by decide) (by decide)).2
      ⟨1, "M1", "1.1.1.1", 8000, "u1"⟩ [⟨2, "M2", "2.2.2.2", 8000, "u2"⟩] rfl).trans
    (by decide),
   ((retrieve_endpoint_first_entry_decides [⟨1, "M1", "1.1.1.1", 8000, "u1"⟩]
      [⟨9, "V", ⟨"9.9.9.9", 9001⟩, 1, 0⟩]
      [⟨1, "M1", "1.1.1.1", 8000, "u1"⟩, ⟨2, "M2", "2.2.2.2", 8000, "u2"⟩]
      (fun mc => if mc.uid = 1 then .ok ⟨""⟩ else .ok ⟨"DATA"⟩)
      (fun _ => 1) (by decide) (by decide)).2
      ⟨1, "M1", "1.1.1.1", 8000, "u1"⟩ [⟨2, "M2", "2.2.2.2", 8000, "u2"⟩] rfl).trans
    (by decide)⟩

end SmartDrive
